import Mathlib

/-!
Verification of the GM65 barcode-scanner serial driver
(src/uart_barcode_scanner.py) against its specification.

The driver is shallowly embedded: the pure protocol layer (the CRC-16
lookup-table computation `crc16` and the frame encoder of
`GM65.__send_command`) is translated to executable Lean functions on `Nat`
byte values, and the transport side effects of each operation are modelled
as an explicit list of transport events.  Python's arbitrary-precision
integers are modelled by `Nat`; `int.to_bytes(n, 'big')`, which raises
`OverflowError` when the value does not fit, is modelled by an
`Option`-returning function.
-/

/-- The 256-entry CRC lookup table of the source function crc16, copied
verbatim from src/uart_barcode_scanner.py lines 158-175. -/
def crcTable : List Nat := [
  0x0000, 0x1021, 0x2042, 0x3063, 0x4084, 0x50A5, 0x60C6, 0x70E7, 0x8108, 0x9129, 0xA14A, 0xB16B, 0xC18C, 0xD1AD, 0xE1CE, 0xF1EF,
  0x1231, 0x0210, 0x3273, 0x2252, 0x52B5, 0x4294, 0x72F7, 0x62D6, 0x9339, 0x8318, 0xB37B, 0xA35A, 0xD3BD, 0xC39C, 0xF3FF, 0xE3DE,
  0x2462, 0x3443, 0x0420, 0x1401, 0x64E6, 0x74C7, 0x44A4, 0x5485, 0xA56A, 0xB54B, 0x8528, 0x9509, 0xE5EE, 0xF5CF, 0xC5AC, 0xD58D,
  0x3653, 0x2672, 0x1611, 0x0630, 0x76D7, 0x66F6, 0x5695, 0x46B4, 0xB75B, 0xA77A, 0x9719, 0x8738, 0xF7DF, 0xE7FE, 0xD79D, 0xC7BC,
  0x48C4, 0x58E5, 0x6886, 0x78A7, 0x0840, 0x1861, 0x2802, 0x3823, 0xC9CC, 0xD9ED, 0xE98E, 0xF9AF, 0x8948, 0x9969, 0xA90A, 0xB92B,
  0x5AF5, 0x4AD4, 0x7AB7, 0x6A96, 0x1A71, 0x0A50, 0x3A33, 0x2A12, 0xDBFD, 0xCBDC, 0xFBBF, 0xEB9E, 0x9B79, 0x8B58, 0xBB3B, 0xAB1A,
  0x6CA6, 0x7C87, 0x4CE4, 0x5CC5, 0x2C22, 0x3C03, 0x0C60, 0x1C41, 0xEDAE, 0xFD8F, 0xCDEC, 0xDDCD, 0xAD2A, 0xBD0B, 0x8D68, 0x9D49,
  0x7E97, 0x6EB6, 0x5ED5, 0x4EF4, 0x3E13, 0x2E32, 0x1E51, 0x0E70, 0xFF9F, 0xEFBE, 0xDFDD, 0xCFFC, 0xBF1B, 0xAF3A, 0x9F59, 0x8F78,
  0x9188, 0x81A9, 0xB1CA, 0xA1EB, 0xD10C, 0xC12D, 0xF14E, 0xE16F, 0x1080, 0x00A1, 0x30C2, 0x20E3, 0x5004, 0x4025, 0x7046, 0x6067,
  0x83B9, 0x9398, 0xA3FB, 0xB3DA, 0xC33D, 0xD31C, 0xE37F, 0xF35E, 0x02B1, 0x1290, 0x22F3, 0x32D2, 0x4235, 0x5214, 0x6277, 0x7256,
  0xB5EA, 0xA5CB, 0x95A8, 0x8589, 0xF56E, 0xE54F, 0xD52C, 0xC50D, 0x34E2, 0x24C3, 0x14A0, 0x0481, 0x7466, 0x6447, 0x5424, 0x4405,
  0xA7DB, 0xB7FA, 0x8799, 0x97B8, 0xE75F, 0xF77E, 0xC71D, 0xD73C, 0x26D3, 0x36F2, 0x0691, 0x16B0, 0x6657, 0x7676, 0x4615, 0x5634,
  0xD94C, 0xC96D, 0xF90E, 0xE92F, 0x99C8, 0x89E9, 0xB98A, 0xA9AB, 0x5844, 0x4865, 0x7806, 0x6827, 0x18C0, 0x08E1, 0x3882, 0x28A3,
  0xCB7D, 0xDB5C, 0xEB3F, 0xFB1E, 0x8BF9, 0x9BD8, 0xABBB, 0xBB9A, 0x4A75, 0x5A54, 0x6A37, 0x7A16, 0x0AF1, 0x1AD0, 0x2AB3, 0x3A92,
  0xFD2E, 0xED0F, 0xDD6C, 0xCD4D, 0xBDAA, 0xAD8B, 0x9DE8, 0x8DC9, 0x7C26, 0x6C07, 0x5C64, 0x4C45, 0x3CA2, 0x2C83, 0x1CE0, 0x0CC1,
  0xEF1F, 0xFF3E, 0xCF5D, 0xDF7C, 0xAF9B, 0xBFBA, 0x8FD9, 0x9FF8, 0x6E17, 0x7E36, 0x4E55, 0x5E74, 0x2E93, 0x3EB2, 0x0ED1, 0x1EF0
]

/-- One iteration of the loop body of crc16 (source lines 178-180):
crc = ((crc << 8) XOR table[(crc >> 8) XOR byte]) AND 0xFFFF. -/
def crcStep (crc byte : Nat) : Nat :=
  ((crc <<< 8) ^^^ crcTable.getD ((crc >>> 8) ^^^ byte) 0) &&& 0xFFFF

/-- Auxiliary big-endian byte serialisation: most significant byte first,
n bytes, higher bytes truncated (callers guard the range, see toBytesBE). -/
def bytesBE : Nat → Nat → List Nat
  | 0, _ => []
  | n + 1, x => (x / 2 ^ (8 * n)) % 256 :: bytesBE n x

/-- Model of Python's x.to_bytes(n, 'big'), which raises OverflowError
when x does not fit into n bytes. -/
def toBytesBE (n x : Nat) : Option (List Nat) :=
  if x < 2 ^ (8 * n) then some (bytesBE n x) else none

/-- The source function crc16 (lines 154-181): table-driven CRC-16 starting
from crc = 0x00, result returned as 2 big-endian bytes. -/
def crc16 (data : List Nat) : List Nat :=
  bytesBE 2 (data.foldl crcStep 0x00)

/-- Model of Python's int.bit_length(): 0 for 0, otherwise the number of
binary digits.  Defined with an explicit fuel argument so that it is
structurally recursive (the value itself is enough fuel, since each step
halves the value). -/
def bitLenAux : Nat → Nat → Nat
  | 0, _ => 0
  | fuel + 1, x => if x = 0 then 0 else bitLenAux fuel (x / 2) + 1

/-- Python's x.bit_length(). -/
def bitLength (x : Nat) : Nat := bitLenAux x x

/-- GM65.CmdType (source lines 85-89). -/
inductive CmdType where
  | READ
  | WRITE
  | CONFIG
deriving DecidableEq

/-- The numeric value of each CmdType enum member. -/
def CmdType.val : CmdType → Nat
  | .READ => 0x07
  | .WRITE => 0x08
  | .CONFIG => 0x09

/-- GM65.CmdHeader.COMMAND (source line 82). -/
def CmdHeaderCOMMAND : Nat := 0x7E00

/-- GM65.Register.ScanMode (source line 55). -/
def ScanMode : Nat × Nat := (0x00, 0b11010101)

/-- GM65.Register.TriggerScanning (source line 56). -/
def TriggerScanning : Nat × Nat := (0x02, 0b00000001)

/-- GM65.Register.DisableAllFormats (source line 59). -/
def DisableAllFormats : Nat × Nat := (0x2c, 0b00000000)

/-- GM65.Register.SerialProtocolConfig (source line 67). -/
def SerialProtocolConfig : Nat × Nat := (0x60, 0b00010001)

/-- GM65.Register.SetReadFailMsgLength (source line 69). -/
def SetReadFailMsgLength : Nat × Nat := (0x81, 0x02)

/-- GM65.Register.SetReadFailMessage (source line 71). -/
def SetReadFailMessage : Nat × Nat := (0x82, 0x150D)

/-- GM65.Register.SaveConfig (source line 72). -/
def SaveConfig : Nat × Nat := (0x0, 0x0)

/-- GM65.FormatRegister (source lines 74-78). -/
inductive FormatRegister where
  | QR
  | DATAMATRIX
  | PDF417
deriving DecidableEq

/-- The numeric value of each FormatRegister enum member. -/
def FormatRegister.val : FormatRegister → Nat
  | .QR => 0x3F
  | .DATAMATRIX => 0x54
  | .PDF417 => 0x55

/-- The pure frame-construction part of GM65.__send_command (source lines
135-144): data_size = ceil(data.bit_length() / 8); the command body is
type byte, data_size.to_bytes(1), address.to_bytes(2), data.to_bytes(data_size);
the frame is the 2-byte header 0x7E00, the body, and crc16 of the body.
Each failing to_bytes (Python OverflowError) yields none, in source order. -/
def encode_command (cmd_type : CmdType) (address data : Nat) : Option (List Nat) := do
  let data_size := (bitLength data + 7) / 8
  let sizeBytes ← toBytesBE 1 data_size
  let addrBytes ← toBytesBE 2 address
  let dataBytes ← toBytesBE data_size data
  let command_body := cmd_type.val :: (sizeBytes ++ addrBytes ++ dataBytes)
  return bytesBE 2 CmdHeaderCOMMAND ++ command_body ++ crc16 command_body

/-- The command body of a well-formed outbound frame, spelled out:
type byte, length byte, 2-byte big-endian address, big-endian payload. -/
def cmdBody (cmd_type : CmdType) (address data : Nat) : List Nat :=
  cmd_type.val :: (bitLength data + 7) / 8 ::
    (bytesBE 2 address ++ bytesBE ((bitLength data + 7) / 8) data)

/-- Big-endian byte-sequence deserialisation. -/
def fromBytesBE (bs : List Nat) : Nat := bs.foldl (fun acc b => acc * 256 + b) 0

/-- Re-parse an outbound frame: check the 0x7E00 header, read the type
byte, the length byte, the 2-byte big-endian address, and length-many
big-endian payload bytes. -/
def parseFrame (f : List Nat) : Option (Nat × Nat × Nat) :=
  match f with
  | 0x7E :: 0x00 :: t :: len :: a1 :: a2 :: rest =>
    if len ≤ rest.length then some (t, a1 * 256 + a2, fromBytesBE (rest.take len))
    else none
  | _ => none

/-- A transport-level side effect of one driver operation: writing bytes,
a fixed-size blocking read, or a read terminated by a delimiter byte. -/
inductive TransportOp where
  | writeBytes : List Nat → TransportOp
  | readBytes : Nat → TransportOp
  | readUntilByte : Nat → TransportOp
deriving DecidableEq

/-- Transport events of GM65.__send_command (source lines 135-151): write
the encoded frame, then __receive_response reads exactly 7 bytes.  If
encoding raises before the write, no transport event happens at all. -/
def sendCommandTrace (cmd_type : CmdType) (address data : Nat) : Option (List TransportOp) :=
  (encode_command cmd_type address data).map
    (fun cmd => [TransportOp.writeBytes cmd, TransportOp.readBytes 7])

/-- Transport events of GM65.scan (source lines 99-105): __send_command
with the TriggerScanning register pair, then read_until(0x0D). -/
def scanTrace : Option (List TransportOp) :=
  (sendCommandTrace CmdType.WRITE TriggerScanning.1 TriggerScanning.2).map
    (fun ops => ops ++ [TransportOp.readUntilByte 0x0D])

/-- pyserial's connection.read_until(term), given the byte stream that the
device delivers before the read deadline: returns the bytes up to and
including the first terminator, or, when no terminator is present in the
delivered stream (the timeout case), returns everything delivered, without
raising. -/
def read_until (term : Nat) : List Nat → List Nat
  | [] => []
  | b :: rest => if b = term then [b] else b :: read_until term rest

/-- The value GM65.scan returns (source lines 103-105): data[:-1] where
data is the read_until(0x0D) result. -/
def scanResult (delivered : List Nat) : List Nat :=
  (read_until 0x0D delivered).dropLast

/-- The command sent by GM65.disable_all_formats (source lines 120-123):
note the source passes the ScanMode register pair, not DisableAllFormats. -/
def disable_all_formats_cmd : Option (List Nat) :=
  encode_command CmdType.WRITE ScanMode.1 ScanMode.2

/-- The command sent by GM65.enable_format (source lines 125-128): the
Python bool enable is passed directly as the payload value (True = 1,
False = 0). -/
def enable_format_cmd (code_format : FormatRegister) (enable : Bool) : Option (List Nat) :=
  encode_command CmdType.WRITE code_format.val (if enable then 1 else 0)

/-- The command sent by GM65.save_config (source lines 130-133). -/
def save_config_cmd : Option (List Nat) :=
  encode_command CmdType.CONFIG SaveConfig.1 SaveConfig.2

/-- Modelled from the spec: one bit of the reference CRC-16/CCITT step,
polynomial 0x1021, no reflection: shift left one bit, and xor the
polynomial in when the bit shifted out was set. -/
def crcStepBit (x : Nat) : Nat :=
  if x.testBit 15 then ((x <<< 1) ^^^ 0x1021) &&& 0xFFFF else (x <<< 1) &&& 0xFFFF

/-- Eight single-bit steps of the reference CRC. -/
def crcRound (x : Nat) : Nat :=
  crcStepBit (crcStepBit (crcStepBit (crcStepBit
    (crcStepBit (crcStepBit (crcStepBit (crcStepBit x)))))))

/-- Modelled from the spec: the reference bitwise CRC absorbs one input
byte by xoring it into the high byte of the running CRC and running eight
single-bit polynomial-division steps. -/
def crcByteBit (crc b : Nat) : Nat := crcRound (crc ^^^ (b <<< 8))

/-- Modelled from the spec: reference bitwise CRC-16/CCITT of a byte
sequence, initial value 0x0000, polynomial 0x1021, no input or output
reflection. -/
def crcRef (data : List Nat) : Nat := data.foldl crcByteBit 0

/-! ## Helper lemmas -/

theorem bitLenAux_lt : ∀ fuel x : Nat, x ≤ fuel → x < 2 ^ bitLenAux fuel x := by
  intro fuel
  induction fuel with
  | zero =>
    intro x hx
    have hx0 : x = 0 := by omega
    subst hx0
    simp [bitLenAux]
  | succ n ih =>
    intro x hx
    by_cases h0 : x = 0
    · subst h0; simp [bitLenAux]
    · simp only [bitLenAux, if_neg h0]
      have hx2 : x / 2 ≤ n := by omega
      have hlt := ih (x / 2) hx2
      rw [Nat.pow_succ]
      omega

theorem bitLength_lt (x : Nat) : x < 2 ^ bitLength x :=
  bitLenAux_lt x x (Nat.le_refl x)

theorem size_bound (d : Nat) : d < 2 ^ (8 * ((bitLength d + 7) / 8)) := by
  have h1 : d < 2 ^ bitLength d := bitLength_lt d
  have h2 : bitLength d ≤ 8 * ((bitLength d + 7) / 8) := by omega
  exact lt_of_lt_of_le h1 (Nat.pow_le_pow_right (by norm_num) h2)

theorem bytesBE_length : ∀ n x : Nat, (bytesBE n x).length = n := by
  intro n
  induction n with
  | zero => intro x; rfl
  | succ n ih => intro x; simp [bytesBE, ih]

theorem foldl_bytesBE : ∀ n x acc : Nat,
    (bytesBE n x).foldl (fun a b => a * 256 + b) acc = acc * 2 ^ (8 * n) + x % 2 ^ (8 * n) := by
  intro n
  induction n with
  | zero => intro x acc; simp [bytesBE, Nat.mod_one]
  | succ n ih =>
    intro x acc
    simp only [bytesBE, List.foldl_cons]
    rw [ih]
    have hmod := Nat.mod_mul (a := 2 ^ (8 * n)) (b := 256) (x := x)
    have hpow : 2 ^ (8 * (n + 1)) = 2 ^ (8 * n) * 256 := by
      rw [show 8 * (n + 1) = 8 * n + 8 by ring, pow_add]
      norm_num
    rw [hpow, hmod]
    ring

theorem fromBytesBE_bytesBE (n x : Nat) (h : x < 2 ^ (8 * n)) :
    fromBytesBE (bytesBE n x) = x := by
  unfold fromBytesBE
  rw [foldl_bytesBE, Nat.mod_eq_of_lt h]
  ring

theorem xor_shiftLeft_distrib (a b n : Nat) : (a ^^^ b) <<< n = (a <<< n) ^^^ (b <<< n) := by
  apply Nat.eq_of_testBit_eq
  intro j
  simp [Nat.testBit_shiftLeft, Nat.testBit_xor, Bool.and_xor_distrib_left]

theorem shiftLeft_xor_low (a b k : Nat) (hb : b < 2 ^ k) : (a <<< k) ^^^ b = a * 2 ^ k + b := by
  apply Nat.eq_of_testBit_eq
  intro j
  rw [Nat.testBit_xor, Nat.testBit_shiftLeft, Nat.mul_comm a, Nat.testBit_mul_pow_two_add a hb]
  by_cases hj : j < k
  · simp [Nat.not_le_of_lt hj, hj]
  · have hk : k ≤ j := Nat.le_of_not_lt hj
    have hbj : b.testBit j = false :=
      Nat.testBit_lt_two_pow (lt_of_lt_of_le hb (Nat.pow_le_pow_right (by norm_num) hk))
    simp [hk, hj, hbj]

theorem and_mask_xor (a b : Nat) (hb : b < 2 ^ 16) : (a ^^^ b) &&& 0xFFFF = (a &&& 0xFFFF) ^^^ b := by
  rw [Nat.and_xor_distrib_right]
  congr 1
  rw [show (0xFFFF : Nat) = 2 ^ 16 - 1 by norm_num]
  exact Nat.and_pow_two_sub_one_of_lt_two_pow hb

theorem crcStepBit_lt (x : Nat) : crcStepBit x < 2 ^ 16 := by
  unfold crcStepBit
  split
  · exact lt_of_le_of_lt Nat.and_le_right (by norm_num)
  · exact lt_of_le_of_lt Nat.and_le_right (by norm_num)

theorem crcRound_lt (x : Nat) : crcRound x < 2 ^ 16 :=
  crcStepBit_lt _

theorem crcByteBit_lt (crc b : Nat) : crcByteBit crc b < 2 ^ 16 :=
  crcStepBit_lt _

theorem crcStepBit_xor (t u : Nat) (hu : u < 2 ^ 15) :
    crcStepBit (t ^^^ u) = crcStepBit t ^^^ u * 2 := by
  have hx : (t ^^^ u) <<< 1 = (t <<< 1) ^^^ u * 2 := by
    rw [xor_shiftLeft_distrib]
    congr 1
    rw [Nat.shiftLeft_eq]
  have hu2 : u * 2 < 2 ^ 16 := by
    have h15 : (2 : Nat) ^ 15 = 32768 := by norm_num
    have h16 : (2 : Nat) ^ 16 = 65536 := by norm_num
    omega
  have hbit : (t ^^^ u).testBit 15 = t.testBit 15 := by
    simp [Nat.testBit_xor, Nat.testBit_lt_two_pow hu]
  unfold crcStepBit
  rw [hbit]
  by_cases h15 : t.testBit 15
  · rw [if_pos h15, if_pos h15, hx, Nat.xor_assoc, Nat.xor_comm (u * 2), ← Nat.xor_assoc,
      and_mask_xor _ _ hu2]
  · rw [if_neg h15, if_neg h15, hx, and_mask_xor _ _ hu2]

theorem crcRound_xor (x u : Nat) (hu : u < 2 ^ 8) :
    crcRound (x ^^^ u) = crcRound x ^^^ u * 256 := by
  have h8 : (2 : Nat) ^ 8 = 256 := by norm_num
  have h15 : (2 : Nat) ^ 15 = 32768 := by norm_num
  unfold crcRound
  rw [crcStepBit_xor _ u (by omega),
    crcStepBit_xor _ (u * 2) (by omega),
    crcStepBit_xor _ (u * 2 * 2) (by omega),
    crcStepBit_xor _ (u * 2 * 2 * 2) (by omega),
    crcStepBit_xor _ (u * 2 * 2 * 2 * 2) (by omega),
    crcStepBit_xor _ (u * 2 * 2 * 2 * 2 * 2) (by omega),
    crcStepBit_xor _ (u * 2 * 2 * 2 * 2 * 2 * 2) (by omega),
    crcStepBit_xor _ (u * 2 * 2 * 2 * 2 * 2 * 2 * 2) (by omega)]
  congr 1
  ring

set_option maxRecDepth 16384 in
theorem crcTable_correct : ∀ i : Fin 256, crcTable.getD i.val 0 = crcByteBit 0 i.val := by
  decide

theorem crcStep_eq_byteBit (crc b : Nat) (hc : crc < 2 ^ 16) (hb : b < 2 ^ 8) :
    crcStep crc b = crcByteBit crc b := by
  have h8 : (2 : Nat) ^ 8 = 256 := by norm_num
  have h16 : (2 : Nat) ^ 16 = 65536 := by norm_num
  have hh : crc / 256 < 256 := by omega
  have hlo : crc % 256 < 256 := by omega
  have hsplit : (crc / 256) <<< 8 ^^^ crc % 256 = crc := by
    rw [shiftLeft_xor_low _ _ 8 (by omega)]
    omega
  have hshr : crc >>> 8 = crc / 256 := by
    rw [Nat.shiftRight_eq_div_pow]
  have hidx : crc / 256 ^^^ b < 256 := by
    have := Nat.xor_lt_two_pow (n := 8) (by omega : crc / 256 < 2 ^ 8) hb
    omega
  have htab : crcTable.getD (crc / 256 ^^^ b) 0 = crcByteBit 0 (crc / 256 ^^^ b) :=
    crcTable_correct ⟨crc / 256 ^^^ b, hidx⟩
  have harg : crc ^^^ b <<< 8 = ((crc / 256 ^^^ b) <<< 8) ^^^ crc % 256 := by
    conv_lhs => rw [← hsplit]
    rw [xor_shiftLeft_distrib, Nat.xor_assoc, Nat.xor_comm (crc % 256), ← Nat.xor_assoc]
  have hmask : (crc <<< 8) &&& 0xFFFF = crc % 256 * 256 := by
    rw [Nat.shiftLeft_eq, show (0xFFFF : Nat) = 2 ^ 16 - 1 by norm_num,
      Nat.and_pow_two_sub_one_eq_mod]
    have hcrc : crc = 256 * (crc / 256) + crc % 256 := (Nat.div_add_mod crc 256).symm
    have : crc * 2 ^ 8 = (crc / 256) * 65536 + crc % 256 * 256 := by omega
    rw [this, h16]
    omega
  unfold crcStep crcByteBit
  rw [hshr, htab, and_mask_xor _ _ (crcByteBit_lt 0 (crc / 256 ^^^ b)), hmask, harg,
    crcRound_xor _ _ (by omega : crc % 256 < 2 ^ 8)]
  unfold crcByteBit
  rw [Nat.zero_xor, Nat.xor_comm]

theorem foldl_crcStep_eq (data : List Nat) : ∀ crc : Nat, crc < 2 ^ 16 →
    (∀ b ∈ data, b < 2 ^ 8) → data.foldl crcStep crc = data.foldl crcByteBit crc := by
  induction data with
  | nil => intro crc _ _; rfl
  | cons x xs ih =>
    intro crc hc hb
    simp only [List.foldl_cons]
    rw [crcStep_eq_byteBit crc x hc (hb x (by simp))]
    exact ih _ (crcByteBit_lt crc x) (fun b hbm => hb b (by simp [hbm]))

theorem crc16_eq_ref (data : List Nat) (h : ∀ b ∈ data, b < 2 ^ 8) :
    crc16 data = bytesBE 2 (crcRef data) := by
  unfold crc16 crcRef
  rw [foldl_crcStep_eq data 0 (by norm_num) h]

theorem encode_eq (t : CmdType) (a d : Nat) (h1 : (bitLength d + 7) / 8 < 256)
    (h2 : a < 2 ^ 16) :
    encode_command t a d = some ([0x7E, 0x00] ++ cmdBody t a d ++ crc16 (cmdBody t a d)) := by
  have hd : d < 2 ^ (8 * ((bitLength d + 7) / 8)) := size_bound d
  have hs : (bitLength d + 7) / 8 < 2 ^ (8 * 1) := by
    have he : (2 : Nat) ^ (8 * 1) = 256 := by norm_num
    omega
  have ha : a < 2 ^ (8 * 2) := by
    have he : (2 : Nat) ^ (8 * 2) = 2 ^ 16 := by norm_num
    omega
  simp only [encode_command, toBytesBE]
  rw [if_pos hs, if_pos ha, if_pos hd]
  simp [cmdBody, CmdHeaderCOMMAND, bytesBE, Nat.mod_eq_of_lt h1]

theorem encode_none (t : CmdType) (a d : Nat)
    (h : 256 ≤ (bitLength d + 7) / 8 ∨ 2 ^ 16 ≤ a) : encode_command t a d = none := by
  simp only [encode_command, toBytesBE]
  rcases h with h | h
  · rw [if_neg (show ¬ (bitLength d + 7) / 8 < 2 ^ (8 * 1) by
      have he : (2 : Nat) ^ (8 * 1) = 256 := by norm_num
      omega)]
    rfl
  · rcases Nat.lt_or_ge ((bitLength d + 7) / 8) (2 ^ (8 * 1)) with hs | hs
    · rw [if_pos hs, if_neg (show ¬ a < 2 ^ (8 * 2) by
        have he : (2 : Nat) ^ (8 * 2) = 2 ^ 16 := by norm_num
        omega)]
      rfl
    · rw [if_neg (Nat.not_lt.mpr hs)]
      rfl

theorem read_until_term (pre post : List Nat) (h : 0x0D ∉ pre) :
    read_until 0x0D (pre ++ 0x0D :: post) = pre ++ [0x0D] := by
  induction pre with
  | nil => simp [read_until]
  | cons x xs ih =>
    have hx : x ≠ 0x0D := by
      intro e
      exact h (by simp [e])
    have hxs : 0x0D ∉ xs := fun m => h (by simp [m])
    simp [read_until, hx, ih hxs]

theorem scanResult_term (pre post : List Nat) (h : 0x0D ∉ pre) :
    scanResult (pre ++ 0x0D :: post) = pre := by
  unfold scanResult
  rw [read_until_term pre post h, List.dropLast_concat]

/-! ## Claim theorems -/

/-- C1: encode_command(WRITE, 0x00, 0xD5) produces exactly the bytes
7E 00 08 01 00 00 D5 followed by the two CRC bytes of the body
08 01 00 00 D5, and every successfully encoded frame is the header
0x7E00, then type, length, big-endian address, big-endian payload,
then the 2-byte CRC of type+length+address+payload. -/
theorem claim_C1 :
    encode_command CmdType.WRITE 0x00 0xD5 =
      some [0x7E, 0x00, 0x08, 0x01, 0x00, 0x00, 0xD5, 0xEF, 0x41] ∧
    crc16 [0x08, 0x01, 0x00, 0x00, 0xD5] = [0xEF, 0x41] ∧
    ∀ (t : CmdType) (a d : Nat) (f : List Nat), encode_command t a d = some f →
      f = [0x7E, 0x00] ++ cmdBody t a d ++ crc16 (cmdBody t a d) := by
  refine ⟨by decide, by decide, ?_⟩
  intro t a d f hf
  by_cases h1 : (bitLength d + 7) / 8 < 256
  · by_cases h2 : a < 2 ^ 16
    · rw [encode_eq t a d h1 h2] at hf
      exact (Option.some.inj hf).symm
    · rw [encode_none t a d (Or.inr (Nat.le_of_not_lt h2))] at hf
      exact Option.noConfusion hf
  · rw [encode_none t a d (Or.inl (Nat.le_of_not_lt h1))] at hf
    exact Option.noConfusion hf

/-- Witness for C1: the frame-layout clause evaluated on the concrete
trigger-scan command. -/
theorem claim_C1_witness :
    encode_command CmdType.WRITE 0x02 0x01 =
      some [0x7E, 0x00, 0x08, 0x01, 0x00, 0x02, 0x01, 0x02, 0xDA] ∧
    [0x7E, 0x00, 0x08, 0x01, 0x00, 0x02, 0x01, 0x02, 0xDA] =
      [0x7E, 0x00] ++ cmdBody CmdType.WRITE 0x02 0x01 ++ crc16 (cmdBody CmdType.WRITE 0x02 0x01) :=
  ⟨by decide, claim_C1.2.2 CmdType.WRITE 0x02 0x01 _ (by decide)⟩

/-- C2: the table-driven crc16 agrees with the reference bitwise
CRC-16/CCITT (polynomial 0x1021, initial value 0x0000, no reflection)
on every byte sequence, the 256-entry table equals the table generated
from the polynomial, and the empty input yields CRC 0x0000. -/
theorem claim_C2 :
    (∀ data : List Nat, (∀ b ∈ data, b < 2 ^ 8) → crc16 data = bytesBE 2 (crcRef data)) ∧
    (∀ i : Fin 256, crcTable.getD i.val 0 = crcByteBit 0 i.val) ∧
    crc16 [] = [0x00, 0x00] :=
  ⟨crc16_eq_ref, crcTable_correct, by decide⟩

/-- Witness for C2: the agreement clause evaluated on a concrete byte
sequence. -/
theorem claim_C2_witness :
    (∀ b ∈ [0x12, 0x34, 0xAB], b < 2 ^ 8) ∧
    crc16 [0x12, 0x34, 0xAB] = bytesBE 2 (crcRef [0x12, 0x34, 0xAB]) :=
  ⟨by decide, claim_C2.1 [0x12, 0x34, 0xAB] (by decide)⟩

/-- C3 counterexample: encoding payload value 0 (here to the QR format
register 0x3F, as enable_format(QR, False) does) yields the length byte
0x00 and an 8-byte frame with no payload byte, not length byte 0x01 with
a single 0x00 payload byte: ceil(bit_length(0)/8) is 0 in the source,
with no minimum of 1. -/
theorem claim_C3_counterexample :
    encode_command CmdType.WRITE 0x3F 0 =
      some [0x7E, 0x00, 0x08, 0x00, 0x00, 0x3F, 0x42, 0x7F] ∧
    [0x7E, 0x00, 0x08, 0x00, 0x00, 0x3F, 0x42, 0x7F].getD 3 0 ≠ 0x01 ∧
    [0x7E, 0x00, 0x08, 0x00, 0x00, 0x3F, 0x42, 0x7F].length = 8 :=
  ⟨by decide, by decide, by decide⟩

/-- C3 as amended: the payload byte-length is ceil(bit_length(value)/8)
with no minimum, so encoding a command whose payload value is 0 yields a
0-byte payload field: the length byte of the frame is 0x00 and no payload
bytes follow the address. -/
theorem claim_C3 :
    (bitLength 0 + 7) / 8 = 0 ∧
    ∀ (t : CmdType) (a : Nat), a < 2 ^ 16 →
      encode_command t a 0 =
        some ([0x7E, 0x00, t.val, 0x00] ++ bytesBE 2 a ++ crc16 (t.val :: 0x00 :: bytesBE 2 a)) := by
  refine ⟨rfl, ?_⟩
  intro t a h2
  rw [encode_eq t a 0 (by decide) h2]
  simp [cmdBody, show (bitLength 0 + 7) / 8 = 0 from rfl, bytesBE]

/-- Witness for C3 on the concrete input enable_format(QR, False). -/
theorem claim_C3_witness :
    (0x3F : Nat) < 2 ^ 16 ∧
    encode_command CmdType.WRITE 0x3F 0 =
      some ([0x7E, 0x00, 0x08, 0x00] ++ bytesBE 2 0x3F ++ crc16 [0x08, 0x00, 0x00, 0x3F]) :=
  ⟨by norm_num, claim_C3.2 CmdType.WRITE 0x3F (by norm_num)⟩

/-- C4: the source method disable_all_formats sends the ScanMode register
pair (0x00, 0xD5), not the DisableAllFormats register pair (0x2C, 0x00)
that the source itself defines (and never uses); the two frames differ. -/
theorem claim_C4 :
    disable_all_formats_cmd = encode_command CmdType.WRITE 0x00 0xD5 ∧
    disable_all_formats_cmd = some [0x7E, 0x00, 0x08, 0x01, 0x00, 0x00, 0xD5, 0xEF, 0x41] ∧
    disable_all_formats_cmd ≠
      encode_command CmdType.WRITE DisableAllFormats.1 DisableAllFormats.2 :=
  ⟨rfl, by decide, by decide⟩

/-- C5 counterexample: crc16 of the ASCII bytes of the string of digits
one through nine is 0x31C3 (the init-0x0000 XModem check value), not
0x29B1 (which is the init-0xFFFF CCITT-FALSE check value). -/
theorem claim_C5_counterexample :
    crc16 [0x31, 0x32, 0x33, 0x34, 0x35, 0x36, 0x37, 0x38, 0x39] = [0x31, 0xC3] ∧
    crc16 [0x31, 0x32, 0x33, 0x34, 0x35, 0x36, 0x37, 0x38, 0x39] ≠ [0x29, 0xB1] :=
  ⟨by decide, by decide⟩

/-- C5 as amended: crc16 matches the reference CRC-16/CCITT with initial
value 0x0000, polynomial 0x1021 and no reflection on every byte sequence,
and on the ASCII digits one through nine it yields 0x31C3. -/
theorem claim_C5 :
    (∀ data : List Nat, (∀ b ∈ data, b < 2 ^ 8) → crc16 data = bytesBE 2 (crcRef data)) ∧
    crc16 [0x31, 0x32, 0x33, 0x34, 0x35, 0x36, 0x37, 0x38, 0x39] = [0x31, 0xC3] :=
  ⟨crc16_eq_ref, by decide⟩

/-- Witness for C5: the agreement clause evaluated on a concrete byte
sequence. -/
theorem claim_C5_witness :
    (∀ b ∈ [0x31, 0x32, 0x33], b < 2 ^ 8) ∧
    crc16 [0x31, 0x32, 0x33] = bytesBE 2 (crcRef [0x31, 0x32, 0x33]) :=
  ⟨by decide, claim_C5.1 [0x31, 0x32, 0x33] (by decide)⟩

/-- C6 counterexample: the transport trace of GM65.scan contains the fixed
7-byte acknowledgement read (performed by __send_command through
__receive_response) before the 0x0D-terminated scan-result read, so the
trigger-scan operation does not skip the 7-byte read. -/
theorem claim_C6_counterexample :
    scanTrace = some [TransportOp.writeBytes [0x7E, 0x00, 0x08, 0x01, 0x00, 0x02, 0x01, 0x02, 0xDA],
      TransportOp.readBytes 7, TransportOp.readUntilByte 0x0D] ∧
    TransportOp.readBytes 7 ∈ scanTrace.getD [] :=
  ⟨by decide, by decide⟩

/-- C6 as amended: the trigger-scan operation writes one WRITE command to
the trigger-scanning register (address 0x02, value 0x01), performs the
fixed 7-byte acknowledgement read that every __send_command issues, and
then performs the scan-result read until the terminator 0x0D, returning
the received bytes with the trailing terminator stripped. -/
theorem claim_C6 :
    scanTrace = some [TransportOp.writeBytes [0x7E, 0x00, 0x08, 0x01, 0x00, 0x02, 0x01, 0x02, 0xDA],
      TransportOp.readBytes 7, TransportOp.readUntilByte 0x0D] ∧
    ∀ pre post : List Nat, 0x0D ∉ pre → scanResult (pre ++ 0x0D :: post) = pre :=
  ⟨by decide, scanResult_term⟩

/-- Witness for C6: the terminator-stripping clause on concrete data. -/
theorem claim_C6_witness :
    (0x0D ∉ [0x31, 0x32]) ∧ scanResult [0x31, 0x32, 0x0D] = [0x31, 0x32] :=
  ⟨by decide, claim_C6.2 [0x31, 0x32] [] (by decide)⟩

/-- C7: when the transport delivers bytes containing no 0x0D terminator
within the timeout, GM65.scan does not fail: pyserial's read_until returns
the partial data and scan returns it with its final byte dropped, here
delivering bytes 41 42 and returning 41 as if it were complete scan
data.  This exhibits the code-level divergence from the claimed
timeout-failure behaviour. -/
theorem claim_C7 :
    (0x0D ∉ [0x41, 0x42]) ∧ scanResult [0x41, 0x42] = [0x41] :=
  ⟨by decide, by decide⟩

/-- C8: re-parsing an encoded frame (type byte, length byte, 2-byte
big-endian address, length-many big-endian payload bytes) recovers the
original type value, address and payload value exactly, whenever the
address fits in 16 bits and the payload needs at most 255 bytes. -/
theorem claim_C8 : ∀ (t : CmdType) (a d : Nat) (f : List Nat),
    a < 2 ^ 16 → (bitLength d + 7) / 8 ≤ 255 → encode_command t a d = some f →
    parseFrame f = some (t.val, a, d) := by
  intro t a d f h2 h1 hf
  have h16 : (2 : Nat) ^ 16 = 65536 := by norm_num
  rw [encode_eq t a d (by omega) h2] at hf
  have hfe := (Option.some.inj hf).symm
  subst hfe
  have hds : d < 2 ^ (8 * ((bitLength d + 7) / 8)) := size_bound d
  have hb2 : bytesBE 2 a = [a / 256 % 256, a % 256] := by
    norm_num [bytesBE]
  have hcrc : ∀ body : List Nat, (crc16 body).length = 2 := by
    intro body
    unfold crc16
    exact bytesBE_length 2 _
  simp only [cmdBody, hb2, List.append_assoc, List.cons_append, List.nil_append]
  simp only [parseFrame]
  rw [if_pos (by
    simp [List.length_append, bytesBE_length, hcrc])]
  rw [List.take_left' (bytesBE_length _ d), fromBytesBE_bytesBE _ d hds]
  have haddr : a / 256 % 256 * 256 + a % 256 = a := by omega
  rw [haddr]

/-- Witness for C8 on the concrete read-fail-message command
(WRITE, 0x82, 0x150D). -/
theorem claim_C8_witness :
    (0x82 : Nat) < 2 ^ 16 ∧ (bitLength 0x150D + 7) / 8 ≤ 255 ∧
    encode_command CmdType.WRITE 0x82 0x150D =
      some [0x7E, 0x00, 0x08, 0x02, 0x00, 0x82, 0x15, 0x0D, 0x31, 0xD0] ∧
    parseFrame [0x7E, 0x00, 0x08, 0x02, 0x00, 0x82, 0x15, 0x0D, 0x31, 0xD0] =
      some (0x08, 0x82, 0x150D) :=
  ⟨by norm_num, by decide, by decide,
    claim_C8 CmdType.WRITE 0x82 0x150D _ (by norm_num) (by decide) (by decide)⟩

/-- C9: a command whose payload value needs more than 255 bytes, or whose
address exceeds 16 bits, is rejected while building the frame (Python
OverflowError in to_bytes), before any transport write: the operation
produces no transport events at all. -/
theorem claim_C9 : ∀ (t : CmdType) (a d : Nat),
    255 < (bitLength d + 7) / 8 ∨ 2 ^ 16 ≤ a → sendCommandTrace t a d = none := by
  intro t a d h
  unfold sendCommandTrace
  rw [encode_none t a d (by rcases h with h | h; exacts [Or.inl (by omega), Or.inr h])]
  rfl

/-- Witness for C9 on the concrete out-of-range address 0x10000. -/
theorem claim_C9_witness :
    (255 < (bitLength 1 + 7) / 8 ∨ (2 : Nat) ^ 16 ≤ 0x10000) ∧
    sendCommandTrace CmdType.WRITE 0x10000 1 = none :=
  ⟨Or.inr (by norm_num), claim_C9 CmdType.WRITE 0x10000 1 (Or.inr (by norm_num))⟩

/-- C10: for every format register, enable_format with enable = False
passes payload value 0 and produces a frame with length byte 0x00 and no
payload bytes (8 bytes in total), while enable = True passes payload
value 1 and produces a frame with length byte 0x01 and the single payload
byte 0x01 at index 6 (9 bytes in total). -/
theorem claim_C10 : ∀ code_format : FormatRegister,
    (enable_format_cmd code_format false).map (List.take 6) =
      some [0x7E, 0x00, 0x08, 0x00, 0x00, code_format.val] ∧
    (enable_format_cmd code_format false).map List.length = some 8 ∧
    (enable_format_cmd code_format true).map (List.take 7) =
      some [0x7E, 0x00, 0x08, 0x01, 0x00, code_format.val, 0x01] ∧
    (enable_format_cmd code_format true).map List.length = some 9 := by
  intro code_format
  cases code_format <;> exact ⟨by decide, by decide, by decide, by decide⟩
